import Mathlib

/-!
Verification development for the agent-based social simulator
(core kernel + economy + culture modules).

All arithmetic on C++ `double` values is modelled exactly over `ℚ`
(the constants appearing in the code are decimal fractions), except for
the trade-network transport attenuation, whose source uses `std::sqrt`
of the region degree and is therefore modelled over `ℝ`.
Machine integers are modelled as `ℤ`/`ℕ`; the C++
`static_cast<int>(double)` truncation toward zero is modelled by `truncQ`.
-/

/-- 4-component belief vector `B[0..3]` (`std::array<double,4>` in the source). -/
structure V4 where
  v0 : ℚ
  v1 : ℚ
  v2 : ℚ
  v3 : ℚ
deriving DecidableEq, Repr

/-- Sum over d of `B[d]*B[d]`, as computed inline in the source
(`Kernel.cpp`, e.g. lines 404-407). -/
def normSq (v : V4) : ℚ :=
  v.v0 * v.v0 + v.v1 * v.v1 + v.v2 * v.v2 + v.v3 * v.v3

/-- `std::clamp(x, lo, hi)`. -/
def clampQ (x lo hi : ℚ) : ℚ := max lo (min hi x)

/-- `static_cast<int>(double)`: truncation toward zero. -/
def truncQ (q : ℚ) : ℤ := if 0 ≤ q then ⌊q⌋ else ⌈q⌉

/-- `Kernel::fastTanh` (Kernel.h lines 264-269): Padé approximant
`x * (27 + x^2) / (27 + 9 * x^2)`. -/
def fastTanh (x : ℚ) : ℚ :=
  x * (27 + x * x) / (27 + 9 * (x * x))

/-- The adaptation rate of the hybrid belief update
(Kernel.cpp lines 392-395): `stepSize * m_comm * m_susceptibility *
(0.7 + openness * 0.6)`. -/
def adaptRate (stepSize mComm mSusceptibility openness : ℚ) : ℚ :=
  stepSize * mComm * mSusceptibility * (0.7 + openness * 0.6)

/-- One dimension of the hybrid belief write-back (Kernel.cpp lines 397-401):
`x[b] += adapt_rate * fastTanh(social_influence[b] - B[b]); B[b] = fastTanh(x[b])`.
Returns the new internal state `x[b]`. -/
def dimNewX (rate xd Bd sd : ℚ) : ℚ :=
  xd + rate * fastTanh (sd - Bd)

/-- Post-update belief state of one agent: internal `x`, observable `B`
and the cached squared norm `B_norm_sq`. -/
structure BeliefState where
  x : V4
  B : V4
  cache : ℚ
deriving DecidableEq, Repr

/-- The hybrid per-agent belief update (Kernel.cpp lines 397-407): for each
dimension `x[b] += rate * fastTanh(s[b] - B[b])`, then `B[b] = fastTanh(x[b])`,
then the cached norm is recomputed from the new `B`. -/
def beliefUpdate (rate : ℚ) (st : BeliefState) (s : V4) : BeliefState :=
  let x0 := dimNewX rate st.x.v0 st.B.v0 s.v0
  let x1 := dimNewX rate st.x.v1 st.B.v1 s.v1
  let x2 := dimNewX rate st.x.v2 st.B.v2 s.v2
  let x3 := dimNewX rate st.x.v3 st.B.v3 s.v3
  let B : V4 := ⟨fastTanh x0, fastTanh x1, fastTanh x2, fastTanh x3⟩
  ⟨⟨x0, x1, x2, x3⟩, B, normSq B⟩

/-- Inputs of the per-agent economic-feedback pass executed inside
`Kernel::step` at generations divisible by 10 (Kernel.cpp lines 528-592). -/
structure FeedbackInput where
  openness : ℚ
  conformity : ℚ
  assertiveness : ℚ
  B : V4
  cache : ℚ              -- B_norm_sq (not touched by the pass)
  regionalHardship : ℚ   -- economy_.getRegion(agent.region).hardship
  regionalWelfare : ℚ    -- economy_.getRegion(agent.region).welfare
  agentHardship : ℚ      -- economy_.getAgentEconomy(agent.id).hardship
  agentWealth : ℚ        -- economy_.getAgentEconomy(agent.id).wealth
deriving DecidableEq, Repr

/-- Result of the feedback pass: new susceptibility, new `B`, untouched cache. -/
structure FeedbackResult where
  mSusceptibility : ℚ
  B : V4
  cache : ℚ
deriving DecidableEq, Repr

/-- The economic-feedback pass of `Kernel::step` (Kernel.cpp lines 536-591):
susceptibility is recomputed and clamped; hardship and wealth, modulated by
personality, nudge `B[0..2]` directly; regional welfare nudges `B[1]`;
finally every `B[d]` is clamped to `[-1, 1]`.  `B_norm_sq` is NOT updated. -/
def econFeedback (a : FeedbackInput) : FeedbackResult :=
  let susc0 := (0.7 + 0.6 * (a.openness - 0.5)) * (1 + a.regionalHardship)
  let susc := clampQ susc0 0.4 2.0
  let experienceWeight := a.openness * 0.0005
  -- hardship-driven nudges on B[0] and B[2]
  let b := a.B
  let b :=
    if a.agentHardship > 0.3 then
      let hp := experienceWeight * a.agentHardship
      if a.conformity < 0.4 then
        { b with v0 := b.v0 - hp * (0.5 - a.conformity),
                 v2 := b.v2 - hp * (0.5 - a.conformity) }
      else if a.conformity > 0.6 then
        { b with v0 := b.v0 + hp * (a.conformity - 0.5) }
      else b
    else b
  -- wealth-driven nudge on B[2]
  let relativeWealth := a.agentWealth / max 0.5 a.regionalWelfare
  let b :=
    if relativeWealth > 2.0 ∧ a.openness < 0.5 then
      { b with v2 := b.v2 + experienceWeight * 0.3 }
    else if relativeWealth < 0.5 ∧ a.assertiveness > 0.6 then
      { b with v2 := b.v2 - experienceWeight * 0.3 }
    else b
  -- regional-welfare nudge on B[1]
  let b :=
    if a.regionalWelfare < 0.5 ∧ a.openness > 0.6 then
      { b with v1 := b.v1 - experienceWeight * (0.5 - a.regionalWelfare) }
    else b
  -- final clamp of every dimension to [-1, 1]
  let b : V4 := ⟨clampQ b.v0 (-1) 1, clampQ b.v1 (-1) 1,
                 clampQ b.v2 (-1) 1, clampQ b.v3 (-1) 1⟩
  ⟨susc, b, a.cache⟩

/-!
### Trade network (TradeNetwork.cpp)

Region-indexed data is modelled as lists; the trade-partner adjacency is a
`List (List ℕ)`.  `TradeNetwork::computeLaplacian` first writes the degree on
the diagonal and then assigns `-1` to every in-range partner column
(an assignment, so duplicate partners collapse, and a self-partner
overwrites the diagonal); both quirks are mirrored here.
-/

/-- One entry `L[i][j]` of the Laplacian built by
`TradeNetwork::computeLaplacian` (TradeNetwork.cpp lines 25-43). -/
def lapEntry (adj : List (List ℕ)) (n i j : ℕ) : ℚ :=
  if j ∈ (adj.getD i []).filter (· < n) then -1
  else if j = i then ((adj.getD i []).length : ℚ)
  else 0

/-- `TradeNetwork::matrixVectorMultiply` (TradeNetwork.cpp lines 45-57):
`result[i] = Σ_j L[i][j] * vec[j]`. -/
def lapMul (adj : List (List ℕ)) (s : List ℚ) : List ℚ :=
  (List.range s.length).map fun i =>
    ((List.range s.length).map fun j => lapEntry adj s.length i j * s.getD j 0).sum

/-- The per-good body of `TradeNetwork::computeFlows` up to and including the
mean-residual conservation correction (TradeNetwork.cpp lines 73-116):
surplus, `flow = -k * (L·surplus)`, clipping to available surplus, and the
correction `trade_balance[i] += -total/num_regions` when `|total| > 1e-6`. -/
def computeFlowGood (adj : List (List ℕ)) (production demand : List ℚ)
    (diffusionRate : ℚ) : List ℚ :=
  let surplus := List.zipWith (· - ·) production demand
  let gradient := lapMul adj surplus
  let flows := (List.range surplus.length).map fun i =>
    let flow := -diffusionRate * gradient.getD i 0
    if flow > 0 then min flow (max 0 (surplus.getD i 0))
    else max flow (surplus.getD i 0)
  let total := flows.sum
  if |total| > 1/1000000 then
    flows.map fun f => f + -total / (surplus.length : ℚ)
  else flows

/-- The transport factor of `TradeNetwork::computeFlows`
(TradeNetwork.cpp lines 119-126): `max(0.5, 1 - 0.02 * sqrt(num_partners))`.
`std::sqrt` forces this step into `ℝ`. -/
noncomputable def transportFactor (deg : ℕ) : ℝ :=
  max 0.5 (1 - 0.02 * Real.sqrt deg)

/-- The transport-cost pass of `TradeNetwork::computeFlows`
(TradeNetwork.cpp lines 118-134), applied after the conservation correction.
Regions with no partners are skipped (`continue`).  The source multiplies
`sign * |flow| * factor`, which equals `factor * flow` since the factor is
positive. -/
noncomputable def applyTransport (adj : List (List ℕ)) (bal : List ℚ) : List ℝ :=
  (List.range bal.length).map fun i =>
    let deg := (adj.getD i []).length
    if deg = 0 then ((bal.getD i 0 : ℚ) : ℝ)
    else transportFactor deg * ((bal.getD i 0 : ℚ) : ℝ)

/-- The full per-good trade balance returned by `TradeNetwork::computeFlows`
and stored by `Economy::computeTrade` (Economy.cpp lines 511-517). -/
noncomputable def computeFlowsFinal (adj : List (List ℕ)) (production demand : List ℚ)
    (diffusionRate : ℚ) : List ℝ :=
  applyTransport adj (computeFlowGood adj production demand diffusionRate)

/-!
### Economic-system hysteresis (Economy.cpp, `evolveEconomicSystems`)

The five system tags; the source compares `std::string` values, modelled by a
decidable enum.  The empty pending string is modelled by `Option`.
-/

/-- Economic system tag (`RegionalEconomy::economic_system`). -/
inductive EconSystem
  | market
  | planned
  | mixed
  | feudal
  | cooperative
deriving DecidableEq, Repr

/-- Modelled from the spec: `RegionalEconomy::TRANSITION_THRESHOLD` is declared
in a header revision that is not present under src/ (the header in src/ lacks
the transition fields referenced by Economy.cpp).  The spec fixes the
threshold formula as `min(200, 50 + 0.5 * years_in_current_system)`, so the
base constant is 50. -/
def TRANSITION_THRESHOLD : ℚ := 50

/-- The transition-relevant fields of `RegionalEconomy`. -/
structure RegionSysState where
  system : EconSystem
  pending : Option EconSystem   -- "" modelled as none
  pressureTicks : ℤ             -- transition_pressure_ticks
  years : ℤ                     -- years_in_current_system
  inertia : ℚ                   -- institutional_inertia
  stability : ℚ                 -- system_stability
  hardship : ℚ
  welfare : ℚ
  inequality : ℚ
deriving DecidableEq, Repr

/-- Institutional inertia after the per-call update
(Economy.cpp lines 1086-1089): `min(0.9, inertia*0.99 + min(0.3, years'*0.005))`
with `years'` the incremented year counter. -/
def updatedInertia (s : RegionSysState) : ℚ :=
  min 0.9 (s.inertia * 0.99 + min 0.3 (((s.years : ℚ) + 1) * 0.005))

/-- The pressure increment added to the counter when the pending direction is
maintained (Economy.cpp lines 1098-1109). -/
def pressureIncrement (s : RegionSysState) : ℤ :=
  let hardshipPressure := max 0 ((s.hardship - 0.3) * 0.5)
  let prosperityPressure := max 0 ((s.welfare - 0.8) * 0.3)
  let instabilityPressure := (1 - s.stability) * 0.2
  let inequalityPressure := max 0 ((s.inequality - 0.4) * 0.3)
  let totalPressure := hardshipPressure + prosperityPressure +
    instabilityPressure + inequalityPressure
  let adjustedPressure := totalPressure * (1 - updatedInertia s)
  if adjustedPressure > 0.5 then 2 else if adjustedPressure > 0.2 then 1 else 0

/-- The stability after pressure accumulation (Economy.cpp line 1111). -/
def pressuredStability (s : RegionSysState) : ℚ :=
  let hardshipPressure := max 0 ((s.hardship - 0.3) * 0.5)
  let prosperityPressure := max 0 ((s.welfare - 0.8) * 0.3)
  let instabilityPressure := (1 - s.stability) * 0.2
  let inequalityPressure := max 0 ((s.inequality - 0.4) * 0.3)
  let totalPressure := hardshipPressure + prosperityPressure +
    instabilityPressure + inequalityPressure
  let adjustedPressure := totalPressure * (1 - updatedInertia s)
  max 0.2 (s.stability - 0.01 * adjustedPressure)

/-- The dynamic transition threshold (Economy.cpp lines 1113-1116):
`min(static_cast<int>(TRANSITION_THRESHOLD + years' * 0.5), 200)`. -/
def requiredTicks (s : RegionSysState) : ℤ :=
  min (truncQ (TRANSITION_THRESHOLD + ((s.years : ℚ) + 1) * 0.5)) 200

/-- The per-region body of `Economy::evolveEconomicSystems`
(Economy.cpp lines 1076-1141, dominant-pole overload, no forced model set),
restricted to the transition-relevant fields; `ideal` is the result of
`determineEconomicSystem`.  The emergent-efficiency recomputation at the end
of the body touches only `efficiency` (from production/consumption data) and
is outside the modelled state. -/
def evolveSystemStep (s : RegionSysState) (ideal : EconSystem) : RegionSysState :=
  let years1 := s.years + 1
  let inertia1 := updatedInertia s
  if s.system ≠ ideal then
    if s.pending = some ideal then
      let ticks1 := s.pressureTicks + pressureIncrement s
      let stability1 := pressuredStability s
      if ticks1 ≥ requiredTicks s then
        { s with system := ideal, pending := none, pressureTicks := 0,
                 years := 0, inertia := inertia1 * 0.5, stability := 0.3 }
      else
        { s with pending := some ideal, pressureTicks := ticks1,
                 years := years1, inertia := inertia1, stability := stability1 }
    else
      let ticks1 := truncQ ((s.pressureTicks : ℚ) * (0.9 + inertia1 * 0.08))
      let ticks2 := if ticks1 < 1 then 1 else ticks1
      { s with pending := some ideal, pressureTicks := ticks2,
               years := years1, inertia := inertia1 }
  else
    let ticks1 := truncQ ((s.pressureTicks : ℚ) * (0.8 + inertia1 * 0.15))
    { s with pending := none, pressureTicks := ticks1,
             years := years1, inertia := inertia1,
             stability := min 1 (s.stability + 0.02) }

/-!
### Prices (Economy.cpp, `updatePrices`)
-/

/-- The five goods (`EconomyTypes.h`). -/
inductive Good
  | food
  | energy
  | tools
  | luxury
  | services
deriving DecidableEq, Repr

/-- Regional subsistence needs (`computeRegionalNeeds`, Economy.cpp
lines 54-77). -/
structure RegionalNeeds where
  food : ℚ
  energy : ℚ
  tools : ℚ
  luxury : ℚ
  services : ℚ
deriving DecidableEq, Repr

/-- `computeRegionalNeeds` (Economy.cpp lines 54-77), with the base
subsistence constants of lines 38-42 substituted. -/
def computeRegionalNeeds (x y development popDensity : ℚ) : RegionalNeeds :=
  let climateFactor := |y - 0.5| * 2
  let latitudeExtreme := |y - 0.5| * 2
  { food := 0.7 * (1 + climateFactor * 0.3)
    energy := 0.35 * (1 + latitudeExtreme * 0.5)
    tools := 0.2 * (0.8 + development * 0.4)
    luxury := 0 + development * 0.15 + popDensity * 0.05
    services := 0.15 * (0.7 + popDensity * 0.6) }

/-- The good-specific subsistence selection of `Economy::updatePrices`
(Economy.cpp lines 541-544). -/
def subsistenceOf (needs : RegionalNeeds) : Good → ℚ
  | .food => needs.food
  | .energy => needs.energy
  | .tools => needs.tools
  | .services => needs.services
  | .luxury => needs.luxury

/-- `PRICE_ADJUSTMENT_RATE` (Economy.cpp line 87). -/
def PRICE_ADJUSTMENT_RATE : ℚ := 0.05

/-- The supply/demand ratio of `Economy::updatePrices`
(Economy.cpp lines 545-547). -/
def supplyDemandRatioOf (pop : ℕ) (welfare development x y : ℚ) (g : Good)
    (production : ℚ) : ℚ :=
  let popDensity := (pop : ℚ) / 500
  let needs := computeRegionalNeeds x y development popDensity
  let demand := (pop : ℚ) * (subsistenceOf needs g + welfare * 0.5)
  if demand > 0 then production / demand else 1

/-- The multiplicative price adjustment of `Economy::updatePrices`
(Economy.cpp lines 549-556): `*1.05` on shortage (`ratio < 0.8`),
`*(1 - 0.05*0.5)` on surplus (`ratio > 1.2`). -/
def adjustedPriceGood (pop : ℕ) (welfare development x y : ℚ) (g : Good)
    (production price : ℚ) : ℚ :=
  let sdr := supplyDemandRatioOf pop welfare development x y g production
  if sdr < 0.8 then price * (1 + PRICE_ADJUSTMENT_RATE)
  else if sdr > 1.2 then price * (1 - PRICE_ADJUSTMENT_RATE * 0.5)
  else price

/-- The per-good body of `Economy::updatePrices` (Economy.cpp lines 539-569):
multiplicative adjustment on shortage/surplus followed by the soft
re-anchoring outside `[0.01, 100]` (lines 561-568).  The caller skips regions
with `population == 0` (line 533). -/
def updatePriceGood (pop : ℕ) (welfare development x y : ℚ) (g : Good)
    (production price : ℚ) : ℚ :=
  let sdr := supplyDemandRatioOf pop welfare development x y g production
  let price1 := adjustedPriceGood pop welfare development x y g production price
  if price1 < 0.01 then 0.01 + sdr * 0.05
  else if price1 > 100 then 100 * (1 - (price1 - 100) / price1 * 0.1)
  else price1

/-!
### Regional Gini and income distribution (Economy.cpp)

Fallible code is modelled with `Except`: a C++ `throw` becomes `.error`.
`agentRegions` lists the kernel agents' `region` fields; `wealths` and
`productivities` index the economy's parallel agent vector by the same id
(the source indexes both with the same loop variable).
-/

/-- `Economy::computeRegionGini` (Economy.cpp lines 1409-1450).  The function
throws (`.error`) when `region_id >= regions_.size()`; otherwise it collects
the wealth of agents in the region, sorts, and applies the sorted-index
formula `2*Σ(i+1)*w_i / (n*Σw) - (n+1)/n`. -/
def computeRegionGiniE (numRegions regionId : ℕ) (agentRegions : List ℕ)
    (wealths : List ℚ) : Except String ℚ :=
  if regionId ≥ numRegions then
    .error "Invalid region_id in computeRegionGini"
  else if wealths.isEmpty then .ok 0
  else
    let ws := (List.range agentRegions.length).filterMap fun i =>
      if agentRegions.getD i 0 = regionId then some (wealths.getD i 0) else none
    if ws.length < 2 then .ok 0
    else
      let sorted := List.insertionSort (· ≤ ·) ws
      let n := sorted.length
      let weightedSum :=
        ((List.range n).map fun i => (((i : ℕ) + 1 : ℕ) : ℚ) * sorted.getD i 0).sum
      let totalSum := sorted.sum
      if totalSum = 0 then .ok 0
      else .ok (2 * weightedSum / ((n : ℚ) * totalSum) - ((n : ℚ) + 1) / n)

/-- The first pass of the fallback path of `Economy::distributeIncome`
(Economy.cpp lines 713-727): per-region productivity totals, throwing
(`.error`) on the first agent whose region is out of range. -/
def fallbackTotalsGo (numRegions : ℕ) (pairs : List (ℕ × ℚ))
    (totals : List ℚ) : Except String (List ℚ) :=
  match pairs with
  | [] => .ok totals
  | (r, p) :: rest =>
      if r ≥ numRegions then .error "Invalid agent.region in distributeIncome"
      else fallbackTotalsGo numRegions rest (totals.set r (totals.getD r 0 + p))

/-- Entry point for the fallback first pass (Economy.cpp lines 715-727). -/
def distributeIncomeFallbackTotals (numRegions : ℕ) (agentRegions : List ℕ)
    (productivities : List ℚ) : Except String (List ℚ) :=
  fallbackTotalsGo numRegions (agentRegions.zip productivities)
    (List.replicate numRegions 0)

/-- The per-region productivity total of the region-indexed (optimized) path
of `Economy::distributeIncome` (Economy.cpp lines 586-591): ids that are out
of range for the economy's agent vector are skipped. -/
def regionTotalProductivity (productivities : List ℚ) (agentIds : List ℕ) : ℚ :=
  (agentIds.map fun a =>
    if a < productivities.length then productivities.getD a 0 else 0).sum

/-!
### Child network creation and small-world cleanup (Kernel.cpp)
-/

/-- Result of the network portion of `Kernel::createChild`. -/
structure ChildNet where
  childNbrs : List ℕ        -- the child's neighbor list
  motherNbrs : List ℕ       -- the mother's neighbor list after the reciprocal link
  reciprocalAdds : List ℕ   -- ids receiving a push_back of the child id, in order
deriving DecidableEq, Repr

/-- The network portion of `Kernel::createChild` (Kernel.cpp lines 980-994):
the child starts with `[motherId]`, the mother gains the child id, and then
`min(3, |mother.neighbors|)` samples are drawn WITH replacement from the
mother's (post-push) neighbor list; each sampled id `≠ childId` and
`< numAgents` is appended to the child's list and receives a reciprocal
link.  `draws` models the uniform RNG draws (indices into the mother's
post-push list). -/
def createChildNetwork (motherId childId numAgents : ℕ) (motherNbrs0 : List ℕ)
    (draws : List ℕ) : ChildNet :=
  let motherNbrs1 := motherNbrs0 ++ [childId]
  let count := min 3 motherNbrs1.length
  let picks := (List.range count).map fun i => motherNbrs1.getD (draws.getD i 0) 0
  let accepted := picks.filter fun nid => nid ≠ childId ∧ nid < numAgents
  { childNbrs := motherId :: accepted
    motherNbrs := motherNbrs1
    reciprocalAdds := accepted }

/-- The deduplication/self-loop cleanup of `Kernel::buildSmallWorld`
(Kernel.cpp lines 210-221): keep the first occurrence of each non-self id.
`seen` models the `unique` hash set. -/
def cleanupGo (selfId : ℕ) (seen : List ℕ) : List ℕ → List ℕ
  | [] => []
  | n :: rest =>
      if n = selfId ∨ n ∈ seen then cleanupGo selfId seen rest
      else n :: cleanupGo selfId (n :: seen) rest

/-- Entry point of the cleanup (empty `unique` set). -/
def cleanupNeighbors (selfId : ℕ) (nbrs : List ℕ) : List ℕ :=
  cleanupGo selfId [] nbrs

/-!
### Culture clustering (Culture.cpp)
-/

/-- The agent data the clustering reads: stable id, alive flag, beliefs. -/
structure CAgent where
  id : ℕ
  alive : Bool
  B : V4
deriving DecidableEq, Repr

/-- Squared 4-D distance (`KMeansClustering::assign`, Culture.cpp
lines 64-69). -/
def sqDist (a b : V4) : ℚ :=
  (a.v0 - b.v0) * (a.v0 - b.v0) + (a.v1 - b.v1) * (a.v1 - b.v1) +
  (a.v2 - b.v2) * (a.v2 - b.v2) + (a.v3 - b.v3) * (a.v3 - b.v3)

/-- The inner loop of `KMeansClustering::assign` (Culture.cpp lines 60-75):
running best squared distance (initially `DBL_MAX`, modelled by `none` since
every computed distance is below it) and first strictly-better index. -/
def kAssignGo (b : V4) : List V4 → ℕ → Option ℚ → ℕ → ℕ
  | [], _, _, best => best
  | c :: rest, i, curBest, best =>
      let d2 := sqDist b c
      match curBest with
      | none => kAssignGo b rest (i + 1) (some d2) i
      | some m =>
          if d2 < m then kAssignGo b rest (i + 1) (some d2) i
          else kAssignGo b rest (i + 1) (some m) best

/-- Cluster index assigned to one belief vector
(`KMeansClustering::assign`, Culture.cpp lines 60-75). -/
def kAssignOne (b : V4) (centroids : List V4) : ℕ :=
  kAssignGo b centroids 0 none 0

/-- `KMeansClustering::assign` (Culture.cpp lines 56-77): every agent in the
vector is assigned, with no aliveness filter. -/
def kmeansAssign (agents : List CAgent) (centroids : List V4) : List ℕ :=
  agents.map fun a => kAssignOne a.B centroids

/-- The member-collection loop of `KMeansClustering::run` (Culture.cpp
lines 141-150): `clusters[assignment[i]].members.push_back(agents[i].id)`
for every agent.  Per cluster this yields the ids whose assignment equals the
cluster index, in agent order. -/
def collectMembers (k : ℕ) (agents : List CAgent) (assignment : List ℕ) :
    List (List ℕ) :=
  (List.range k).map fun c =>
    (agents.zip assignment).filterMap fun p =>
      if p.2 = c then some p.1.id else none

/-- Parameters stored by the `KMeansClustering` constructor. -/
structure KMeansParams where
  k : ℤ
  maxIter : ℤ
  tolerance : ℚ
deriving DecidableEq, Repr

/-- `KMeansClustering::KMeansClustering` (Culture.cpp lines 25-26):
`k_ = max(2, k)`, `maxIter_ = max(1, maxIter)`,
`tolerance_ = max(1e-6, tolerance)`. -/
def kmeansCtor (k maxIter : ℤ) (tolerance : ℚ) : KMeansParams :=
  ⟨max 2 k, max 1 maxIter, max (1/1000000) tolerance⟩

/-- Parameters stored by the `DBSCANClustering` constructor. -/
structure DBSCANParams where
  eps : ℚ
  minPts : ℤ
deriving DecidableEq, Repr

/-- `DBSCANClustering::DBSCANClustering` (Culture.cpp lines 157-158):
`eps_ = max(1e-3, eps)`, `minPts_ = max(2, minPts)`. -/
def dbscanCtor (eps : ℚ) (minPts : ℤ) : DBSCANParams :=
  ⟨max (1/1000) eps, max 2 minPts⟩

/-- The cluster list returned by `KMeansClustering::run` (Culture.cpp
lines 141-153): `k_` clusters are created and members are collected from the
final assignment. -/
def kmeansRunClusters (p : KMeansParams) (agents : List CAgent)
    (centroids : List V4) : List (List ℕ) :=
  collectMembers p.k.toNat agents (kmeansAssign agents centroids)

/-!
### Blended social influence (MeanField.h / Kernel.cpp)
-/

/-- `NeighborInfluence` (MeanField.h lines 14-18). -/
structure NeighborInfluence where
  beliefSum : V4
  totalWeight : ℚ
  neighborCount : ℤ
deriving DecidableEq, Repr

/-- Componentwise scaling of a belief vector. -/
def scaleV4 (c : ℚ) (v : V4) : V4 := ⟨c * v.v0, c * v.v1, c * v.v2, c * v.v3⟩

/-- Componentwise addition of belief vectors. -/
def addV4 (a b : V4) : V4 :=
  ⟨a.v0 + b.v0, a.v1 + b.v1, a.v2 + b.v2, a.v3 + b.v3⟩

/-- Modelled from the spec: `MeanFieldApproximation::getBlendedInfluence` is
declared in MeanField.h (lines 53-59) but its definition is not present under
src/.  Spec §4.2: "Given neighbor sum S_i with total weight W_i and regional
field F_r, the social influence is α · (S_i/W_i if W_i > 0 else F_r) +
(1−α) · F_r, where α is the neighbor weight." -/
def getBlendedInfluence (ni : NeighborInfluence) (field : V4)
    (neighborWeight : ℚ) : V4 :=
  let base :=
    if ni.totalWeight > 0 then scaleV4 (1 / ni.totalWeight) ni.beliefSum
    else field
  addV4 (scaleV4 neighborWeight base) (scaleV4 (1 - neighborWeight) field)

/-- The neighbor weight α of the hybrid update (Kernel.cpp lines 375-384):
`0.6 - conformity*0.2`, forced to `0.2` for agents with fewer than 2 alive
neighbors, clamped to `[0.2, 0.8]`. -/
def neighborWeightOf (conformity : ℚ) (neighborCount : ℤ) : ℚ :=
  let w := 0.6 - conformity * 0.2
  let w := if neighborCount < 2 then 0.2 else w
  clampQ w 0.2 0.8

/-! ## Theorems -/

/-- `fastTanh t ≤ 1` exactly for `t ≤ 3`:
`t(27+t²) - (27+9t²) = (t-3)³`. -/
theorem fastTanh_le_one_iff (t : ℚ) : fastTanh t ≤ 1 ↔ t ≤ 3 := by
  have hd : (0 : ℚ) < 27 + 9 * (t * t) := by nlinarith [mul_self_nonneg t]
  rw [fastTanh, div_le_one hd, ← sub_nonpos,
    show t * (27 + t * t) - (27 + 9 * (t * t)) = (t - 3) ^ 3 by ring,
    Odd.pow_nonpos_iff (by decide), sub_nonpos]

/-- `-1 ≤ fastTanh t` exactly for `-3 ≤ t`. -/
theorem neg_one_le_fastTanh_iff (t : ℚ) : -1 ≤ fastTanh t ↔ -3 ≤ t := by
  have hd : (0 : ℚ) < 27 + 9 * (t * t) := by nlinarith [mul_self_nonneg t]
  rw [fastTanh, le_div_iff₀ hd, ← sub_nonneg,
    show t * (27 + t * t) - -1 * (27 + 9 * (t * t)) = (t + 3) ^ 3 by ring,
    Odd.pow_nonneg_iff (by decide)]
  constructor <;> intro h <;> linarith

/-- The Padé `fastTanh` lies in `[-1, 1]` exactly on `[-3, 3]`. -/
theorem abs_fastTanh_le_one_iff (t : ℚ) : |fastTanh t| ≤ 1 ↔ |t| ≤ 3 := by
  rw [abs_le, abs_le]
  exact and_congr (neg_one_le_fastTanh_iff t) (fastTanh_le_one_iff t)

/-- A value clamped to `[-1, 1]` has absolute value at most 1. -/
theorem abs_clampQ_le_one (x : ℚ) : |clampQ x (-1) 1| ≤ 1 := by
  rw [clampQ, abs_le]
  exact ⟨le_max_left _ _, max_le (by norm_num) (min_le_left _ _)⟩

/-- Claim C1 (amended): after the hybrid belief update the cached `B_norm_sq`
equals Σ B[d]² exactly and each `B[d]` equals `fastTanh` of the new internal
state; but the Padé `fastTanh` keeps `B[d]` within `[-1, 1]` exactly when
`|x[d]| ≤ 3` (it exceeds 1 beyond that, so the claimed bound can fail at a
tick boundary); and the every-10-ticks economic feedback clamps `B` to
`[-1, 1]` while leaving the cached `B_norm_sq` unchanged, so the cache can be
stale at those boundaries. -/
theorem C1_belief_invariant_amended :
    (∀ (rate : ℚ) (st : BeliefState) (s : V4),
      (beliefUpdate rate st s).cache = normSq (beliefUpdate rate st s).B ∧
      (beliefUpdate rate st s).B.v0 = fastTanh (beliefUpdate rate st s).x.v0 ∧
      (beliefUpdate rate st s).B.v1 = fastTanh (beliefUpdate rate st s).x.v1 ∧
      (beliefUpdate rate st s).B.v2 = fastTanh (beliefUpdate rate st s).x.v2 ∧
      (beliefUpdate rate st s).B.v3 = fastTanh (beliefUpdate rate st s).x.v3) ∧
    (∀ t : ℚ, |fastTanh t| ≤ 1 ↔ |t| ≤ 3) ∧
    (∀ a : FeedbackInput,
      |(econFeedback a).B.v0| ≤ 1 ∧ |(econFeedback a).B.v1| ≤ 1 ∧
      |(econFeedback a).B.v2| ≤ 1 ∧ |(econFeedback a).B.v3| ≤ 1 ∧
      (econFeedback a).cache = a.cache) := by
  refine ⟨fun rate st s => ⟨rfl, rfl, rfl, rfl, rfl⟩, abs_fastTanh_le_one_iff,
    fun a => ⟨?_, ?_, ?_, ?_, rfl⟩⟩ <;> exact abs_clampQ_le_one _

/-- Claim C1 counterexample: with internal state `x[0] = 5` (reachable: the
initial `x` is drawn from an unbounded normal, and `x` accumulates increments
every tick), the hybrid update produces `B[0] = fastTanh(x') > 1`, violating
`B[d] ∈ [-1, 1]`; and the economic-feedback pass can change `B` while leaving
the cached `B_norm_sq` at its old value, violating
`B_norm_sq = Σ B[d]²`. -/
theorem C1_belief_invariant_counterexample :
    1 < (beliefUpdate (adaptRate 0.15 1 1 0.5)
          ⟨⟨5, 0, 0, 0⟩, ⟨1, 0, 0, 0⟩, 1⟩ ⟨0, 0, 0, 0⟩).B.v0 ∧
    (econFeedback ⟨1, 0, 0, ⟨0.5, 0, 0, 0⟩, 0.25, 0, 1, 0.9, 1⟩).cache ≠
      normSq (econFeedback ⟨1, 0, 0, ⟨0.5, 0, 0, 0⟩, 0.25, 0, 1, 0.9, 1⟩).B := by
  constructor
  · norm_num [beliefUpdate, dimNewX, adaptRate, fastTanh, normSq]
  · norm_num [econFeedback, clampQ, normSq]

/-- Claim C4: in hybrid mode the social influence is
`α·(S/W) + (1-α)·F` when `W > 0` and `F` otherwise, with
`α = clamp(0.6 - 0.2·conformity, 0.2, 0.8)` forced to `0.2` for agents with
fewer than 2 alive neighbors. -/
theorem C4_blended_influence (ni : NeighborInfluence) (field : V4)
    (conformity : ℚ) :
    (ni.totalWeight > 0 →
      getBlendedInfluence ni field (neighborWeightOf conformity ni.neighborCount) =
        addV4 (scaleV4 (neighborWeightOf conformity ni.neighborCount)
                (scaleV4 (1 / ni.totalWeight) ni.beliefSum))
              (scaleV4 (1 - neighborWeightOf conformity ni.neighborCount) field)) ∧
    (¬ ni.totalWeight > 0 →
      getBlendedInfluence ni field (neighborWeightOf conformity ni.neighborCount) =
        field) ∧
    (ni.neighborCount < 2 → neighborWeightOf conformity ni.neighborCount = 0.2) ∧
    neighborWeightOf conformity ni.neighborCount =
      max 0.2 (min 0.8
        (if ni.neighborCount < 2 then 0.2 else 0.6 - conformity * 0.2)) := by
  refine ⟨fun hw => ?_, fun hw => ?_, fun hc => ?_, rfl⟩
  · simp only [getBlendedInfluence, if_pos hw]
  · simp only [getBlendedInfluence, if_neg hw, addV4, scaleV4]
    cases field
    simp only [V4.mk.injEq]
    refine ⟨by ring, by ring, by ring, by ring⟩
  · simp only [neighborWeightOf, if_pos hc, clampQ]
    norm_num

/-- Claim C4 witness: the theorem instantiated at concrete inputs, with the
`W > 0` branch, the `W = 0` branch and the isolated-agent forcing all
discharged. -/
theorem C4_blended_influence_witness :
    getBlendedInfluence ⟨⟨2, 0, 0, 0⟩, 2, 5⟩ ⟨1, 1, 1, 1⟩ (neighborWeightOf 0.5 5) =
      addV4 (scaleV4 (neighborWeightOf 0.5 5) (scaleV4 (1 / 2) ⟨2, 0, 0, 0⟩))
            (scaleV4 (1 - neighborWeightOf 0.5 5) ⟨1, 1, 1, 1⟩) ∧
    getBlendedInfluence ⟨⟨0, 0, 0, 0⟩, 0, 0⟩ ⟨1, 1, 1, 1⟩ (neighborWeightOf 0.5 0) =
      ⟨1, 1, 1, 1⟩ ∧
    neighborWeightOf 0.5 0 = 0.2 :=
  ⟨(C4_blended_influence ⟨⟨2, 0, 0, 0⟩, 2, 5⟩ ⟨1, 1, 1, 1⟩ 0.5).1 (by norm_num),
   (C4_blended_influence ⟨⟨0, 0, 0, 0⟩, 0, 0⟩ ⟨1, 1, 1, 1⟩ 0.5).2.1 (by norm_num),
   (C4_blended_influence ⟨⟨0, 0, 0, 0⟩, 0, 0⟩ ⟨1, 1, 1, 1⟩ 0.5).2.2.1 (by norm_num)⟩

/-- Claim C10: the clustering constructors silently coerce out-of-range
parameters — `k` to at least 2, the iteration cap to at least 1, the
tolerance to at least 1e-6, DBSCAN's epsilon to at least 1e-3 and `minPts`
to at least 2 — and a request for `k = 1` yields a cluster list of
length 2. -/
theorem C10_ctor_coercion :
    (∀ (k maxIter : ℤ) (tolerance : ℚ),
      (kmeansCtor k maxIter tolerance).k = max 2 k ∧
      (kmeansCtor k maxIter tolerance).maxIter = max 1 maxIter ∧
      (kmeansCtor k maxIter tolerance).tolerance = max (1/1000000) tolerance) ∧
    (∀ (eps : ℚ) (minPts : ℤ),
      (dbscanCtor eps minPts).eps = max (1/1000) eps ∧
      (dbscanCtor eps minPts).minPts = max 2 minPts) ∧
    (∀ (maxIter : ℤ) (tolerance : ℚ) (agents : List CAgent)
      (centroids : List V4),
      (kmeansRunClusters (kmeansCtor 1 maxIter tolerance) agents
        centroids).length = 2) := by
  refine ⟨fun k maxIter tolerance => ⟨rfl, rfl, rfl⟩,
    fun eps minPts => ⟨rfl, rfl⟩, fun maxIter tolerance agents centroids => ?_⟩
  simp [kmeansRunClusters, collectMembers, kmeansCtor]

/-- Evaluation of the pressure increment at the counterexample state for the
system-transition claim. -/
theorem pressureIncrement_cex :
    pressureIncrement ⟨.mixed, some .market, 49, 0, 0, 1, 1, 0, 0⟩ = 1 := by
  norm_num [pressureIncrement, updatedInertia, min_def, max_def]

/-- Claim C3 counterexample: with one year in the current system the code's
integer-truncated threshold is `int(50 + 0.5) = 50`, so a region whose
counter reaches 50 switches even though the claimed threshold
`min(200, 50 + 0.5·years)` is `50.5`, which the counter has not reached. -/
theorem C3_transition_counterexample :
    (evolveSystemStep ⟨.mixed, some .market, 49, 0, 0, 1, 1, 0, 0⟩ .market).system ≠
      EconSystem.mixed ∧
    (((49 : ℤ) +
        pressureIncrement ⟨.mixed, some .market, 49, 0, 0, 1, 1, 0, 0⟩ : ℤ) : ℚ) <
      min 200 (TRANSITION_THRESHOLD + (((0 : ℤ) : ℚ) + 1) * 0.5) := by
  constructor
  · have h1 : requiredTicks ⟨.mixed, some .market, 49, 0, 0, 1, 1, 0, 0⟩ = 50 := by
      norm_num [requiredTicks, truncQ, TRANSITION_THRESHOLD]
    simp [evolveSystemStep, pressureIncrement_cex, h1]
  · rw [pressureIncrement_cex]
    norm_num [TRANSITION_THRESHOLD, min_def]

/-- Claim C3 (amended): the emergent transition machinery switches a region's
system only when the pending direction matches the ideal and the incremented
pressure counter has reached the integer-truncated threshold
`min(int(50 + 0.5·years), 200)`; on the switch the years counter resets to 0,
the pressure counter resets to 0, institutional inertia is halved (after its
per-call update) and stability drops to 0.3. -/
theorem C3_transition_amended (s : RegionSysState) (ideal : EconSystem)
    (h : (evolveSystemStep s ideal).system ≠ s.system) :
    s.system ≠ ideal ∧ s.pending = some ideal ∧
    (evolveSystemStep s ideal).system = ideal ∧
    requiredTicks s ≤ s.pressureTicks + pressureIncrement s ∧
    (evolveSystemStep s ideal).years = 0 ∧
    (evolveSystemStep s ideal).pressureTicks = 0 ∧
    (evolveSystemStep s ideal).inertia = updatedInertia s * 0.5 ∧
    (evolveSystemStep s ideal).stability = 0.3 := by
  simp only [evolveSystemStep] at h ⊢
  split_ifs at h ⊢ with h1 h2 h3
  all_goals
    first
    | exact ⟨h1, h2, rfl, h3, rfl, rfl, rfl, rfl⟩
    | exact absurd rfl h

/-- Claim C3 witness: the amended theorem applied at a state that does
switch, with the hypothesis discharged by evaluation. -/
theorem C3_transition_witness :
    (⟨.mixed, some .market, 49, 0, 0, 1, 1, 0, 0⟩ : RegionSysState).system ≠
        EconSystem.market ∧
    (⟨.mixed, some .market, 49, 0, 0, 1, 1, 0, 0⟩ : RegionSysState).pending =
        some .market ∧
    (evolveSystemStep ⟨.mixed, some .market, 49, 0, 0, 1, 1, 0, 0⟩ .market).system =
        EconSystem.market ∧
    requiredTicks ⟨.mixed, some .market, 49, 0, 0, 1, 1, 0, 0⟩ ≤
      (⟨.mixed, some .market, 49, 0, 0, 1, 1, 0, 0⟩ : RegionSysState).pressureTicks +
        pressureIncrement ⟨.mixed, some .market, 49, 0, 0, 1, 1, 0, 0⟩ ∧
    (evolveSystemStep ⟨.mixed, some .market, 49, 0, 0, 1, 1, 0, 0⟩ .market).years = 0 ∧
    (evolveSystemStep ⟨.mixed, some .market, 49, 0, 0, 1, 1, 0, 0⟩
        .market).pressureTicks = 0 ∧
    (evolveSystemStep ⟨.mixed, some .market, 49, 0, 0, 1, 1, 0, 0⟩ .market).inertia =
      updatedInertia ⟨.mixed, some .market, 49, 0, 0, 1, 1, 0, 0⟩ * 0.5 ∧
    (evolveSystemStep ⟨.mixed, some .market, 49, 0, 0, 1, 1, 0, 0⟩
        .market).stability = 0.3 :=
  C3_transition_amended ⟨.mixed, some .market, 49, 0, 0, 1, 1, 0, 0⟩ .market (by
    have h1 : requiredTicks ⟨.mixed, some .market, 49, 0, 0, 1, 1, 0, 0⟩ = 50 := by
      norm_num [requiredTicks, truncQ, TRANSITION_THRESHOLD]
    simp [evolveSystemStep, pressureIncrement_cex, h1])

/-- Skipping out-of-range ids in the optimized income path leaves the
productivity total unchanged. -/
theorem regionTotalProductivity_filter (productivities : List ℚ) :
    ∀ agentIds : List ℕ,
      regionTotalProductivity productivities agentIds =
        regionTotalProductivity productivities
          (agentIds.filter fun a => a < productivities.length) := by
  intro agentIds
  induction agentIds with
  | nil => rfl
  | cons a tl ih =>
    by_cases h : a < productivities.length <;>
      simp [regionTotalProductivity, List.filter_cons, h, ih] <;>
      simpa [regionTotalProductivity] using ih

/-- The fallback income pass errors as soon as some agent's region is out of
range. -/
theorem fallbackTotalsGo_error (numRegions : ℕ) :
    ∀ (pairs : List (ℕ × ℚ)) (totals : List ℚ),
      (∃ rp ∈ pairs, numRegions ≤ rp.1) →
      ∃ e, fallbackTotalsGo numRegions pairs totals = .error e := by
  intro pairs
  induction pairs with
  | nil => rintro totals ⟨rp, hmem, -⟩; cases hmem
  | cons hd tl ih =>
    rintro totals ⟨rp, hmem, hge⟩
    obtain ⟨r, p⟩ := hd
    by_cases hr : r ≥ numRegions
    · exact ⟨"Invalid agent.region in distributeIncome", by simp [fallbackTotalsGo, hr]⟩
    · rcases List.mem_cons.mp hmem with heq | htl
      · subst heq; exact absurd hge hr
      · have := ih (totals.set r (totals.getD r 0 + p)) ⟨rp, htl, hge⟩
        simpa [fallbackTotalsGo, hr] using this

/-- Claim C6 counterexample: the regional Gini computation and the fallback
income path throw (modelled as `.error`) on an out-of-range region index,
so these per-agent paths are not throw-free. -/
theorem C6_no_throw_counterexample :
    computeRegionGiniE 1 1 [0] [5/2] =
      .error "Invalid region_id in computeRegionGini" ∧
    distributeIncomeFallbackTotals 1 [3] [1] =
      .error "Invalid agent.region in distributeIncome" := by
  constructor
  · simp [computeRegionGiniE]
  · simp [distributeIncomeFallbackTotals, fallbackTotalsGo]

/-- Claim C6 (amended): the region-indexed (optimized) income path recovers
locally — out-of-range agent ids are skipped and the productivity total
equals the one over the valid ids only — but `computeRegionGini` and the
fallback path of `distributeIncome` throw (return `.error`) on an
out-of-range region index. -/
theorem C6_hot_path_amended :
    (∀ (productivities : List ℚ) (agentIds : List ℕ),
      regionTotalProductivity productivities agentIds =
        regionTotalProductivity productivities
          (agentIds.filter fun a => a < productivities.length)) ∧
    (∀ (numRegions regionId : ℕ) (agentRegions : List ℕ) (wealths : List ℚ),
      numRegions ≤ regionId →
      computeRegionGiniE numRegions regionId agentRegions wealths =
        .error "Invalid region_id in computeRegionGini") ∧
    (∀ (numRegions : ℕ) (pairs : List (ℕ × ℚ)) (totals : List ℚ),
      (∃ rp ∈ pairs, numRegions ≤ rp.1) →
      ∃ e, fallbackTotalsGo numRegions pairs totals = .error e) := by
  refine ⟨regionTotalProductivity_filter, fun nR rid regions wealths hge => ?_,
    fallbackTotalsGo_error⟩
  simp [computeRegionGiniE, hge]

/-- Claim C6 witness: the amended theorem instantiated at concrete inputs,
discharging the out-of-range hypotheses by evaluation. -/
theorem C6_hot_path_witness :
    computeRegionGiniE 2 3 [0, 1] [4, 7] =
      .error "Invalid region_id in computeRegionGini" ∧
    ∃ e, fallbackTotalsGo 1 [(2, 5)] [0] = Except.error e :=
  ⟨C6_hot_path_amended.2.1 2 3 [0, 1] [4, 7] (by norm_num),
   C6_hot_path_amended.2.2 1 [(2, 5)] [0] ⟨(2, 5), by simp, by norm_num⟩⟩

/-- Properties of the small-world cleanup loop, generalized over the `seen`
accumulator: the output avoids `seen` and `selfId`, stays inside the input,
and has no duplicates. -/
theorem cleanupGo_spec (selfId : ℕ) :
    ∀ (l seen : List ℕ),
      (∀ e ∈ cleanupGo selfId seen l, e ∈ l ∧ e ∉ seen ∧ e ≠ selfId) ∧
      (cleanupGo selfId seen l).Nodup := by
  intro l
  induction l with
  | nil => intro seen; simp [cleanupGo]
  | cons n tl ih =>
    intro seen
    by_cases h : n = selfId ∨ n ∈ seen
    · have hgo : cleanupGo selfId seen (n :: tl) = cleanupGo selfId seen tl := by
        simp only [cleanupGo]
        rw [if_pos h]
      rw [hgo]
      refine ⟨fun e he => ?_, (ih seen).2⟩
      obtain ⟨h1, h2, h3⟩ := (ih seen).1 e he
      exact ⟨List.mem_cons_of_mem _ h1, h2, h3⟩
    · push_neg at h
      have hgo : cleanupGo selfId seen (n :: tl) =
          n :: cleanupGo selfId (n :: seen) tl := by
        simp [cleanupGo, h.1, h.2]
      constructor
      · intro e he
        rw [hgo] at he
        rcases List.mem_cons.mp he with heq | htl
        · subst heq; exact ⟨List.mem_cons_self _ _, h.2, h.1⟩
        · obtain ⟨h1, h2, h3⟩ := (ih (n :: seen)).1 e htl
          exact ⟨List.mem_cons_of_mem _ h1,
            fun hc => h2 (List.mem_cons_of_mem _ hc), h3⟩
      · rw [hgo]
        refine List.nodup_cons.mpr ⟨fun hc => ?_, (ih (n :: seen)).2⟩
        exact ((ih (n :: seen)).1 n hc).2.1 (List.mem_cons_self _ _)

/-- Claim C7 counterexample: `createChild` samples the mother's neighbors
with replacement and never deduplicates, so the same neighbor can be drawn
twice and the child's neighbor list gains a duplicate entry — the list is not
a set. -/
theorem C7_neighbor_sets_counterexample :
    ¬ (createChildNetwork 0 7 8 [5] [0, 0]).childNbrs.Nodup := by
  decide

/-- Claim C7 (amended): after the final cleanup of `buildSmallWorld` every
neighbor list is duplicate-free, self-loop-free and a subset of the raw list;
`createChild` keeps the child's list self-loop-free and within bounds, but
(sampling with replacement, without a duplicate check) it may insert the same
neighbor twice into the child's list and push the child twice into that
neighbor's list. -/
theorem C7_neighbor_sets_amended :
    (∀ (selfId : ℕ) (nbrs : List ℕ),
      (cleanupNeighbors selfId nbrs).Nodup ∧
      selfId ∉ cleanupNeighbors selfId nbrs ∧
      ∀ e ∈ cleanupNeighbors selfId nbrs, e ∈ nbrs) ∧
    (∀ (motherId childId numAgents : ℕ) (motherNbrs0 draws : List ℕ),
      motherId ≠ childId → motherId < numAgents →
      childId ∉ (createChildNetwork motherId childId numAgents motherNbrs0
          draws).childNbrs ∧
      ∀ e ∈ (createChildNetwork motherId childId numAgents motherNbrs0
          draws).childNbrs, e < numAgents) := by
  constructor
  · intro selfId nbrs
    refine ⟨(cleanupGo_spec selfId nbrs []).2,
      fun hc => ((cleanupGo_spec selfId nbrs []).1 selfId hc).2.2 rfl,
      fun e he => ((cleanupGo_spec selfId nbrs []).1 e he).1⟩
  · intro motherId childId numAgents motherNbrs0 draws hne hlt
    simp only [createChildNetwork]
    constructor
    · intro hc
      rcases List.mem_cons.mp hc with heq | hmem
      · exact hne heq.symm
      · have hp := List.mem_filter.mp hmem
        simp only [decide_eq_true_eq, ne_eq] at hp
        exact hp.2.1 trivial
    · intro e he
      rcases List.mem_cons.mp he with heq | hmem
      · simpa [heq] using hlt
      · have hp := List.mem_filter.mp hmem
        simp only [decide_eq_true_eq, ne_eq] at hp
        exact hp.2.2

/-- Claim C7 witness: the amended theorem applied at a concrete child
creation, hypotheses discharged by evaluation. -/
theorem C7_neighbor_sets_witness :
    7 ∉ (createChildNetwork 0 7 8 [5, 2] [1, 0]).childNbrs ∧
    ∀ e ∈ (createChildNetwork 0 7 8 [5, 2] [1, 0]).childNbrs, e < 8 :=
  C7_neighbor_sets_amended.2 0 7 8 [5, 2] [1, 0] (by decide) (by decide)

/-- The supply/demand ratio is nonnegative for nonnegative production. -/
theorem supplyDemandRatioOf_nonneg (pop : ℕ) (welfare development x y : ℚ)
    (g : Good) (production : ℚ) (hp : 0 ≤ production) :
    0 ≤ supplyDemandRatioOf pop welfare development x y g production := by
  simp only [supplyDemandRatioOf]
  split_ifs with h
  · exact div_nonneg hp h.le
  · norm_num

/-- Claim C8 counterexample: a region with one resident, zero development and
zero welfare has luxury demand `0.0001`; with luxury production `1` the
supply/demand ratio is `10000`, the `*0.975` step drops an entry price of
`0.01` below the floor, and the floor re-anchor `0.01 + ratio*0.05` lands at
`500.01`, far outside `[0.01, 100]`. -/
theorem C8_price_counterexample :
    100 < updatePriceGood 1 0 0 0 0.5 .luxury 1 0.01 := by
  norm_num [updatePriceGood, adjustedPriceGood, supplyDemandRatioOf,
    computeRegionalNeeds, subsistenceOf, PRICE_ADJUSTMENT_RATE]

/-- Claim C8 (amended): the multiplicative adjustments are exactly as claimed
(`*1.05` when the ratio is below 0.8, `*0.975` when above 1.2), and after the
soft re-anchoring the price lies in `[0.01, 100]` provided the supply/demand
ratio is at most `1999.8`; when the floor re-anchor fires with a larger
ratio, the re-anchored price `0.01 + ratio*0.05` exceeds 100. -/
theorem C8_price_amended (pop : ℕ) (welfare development x y production price : ℚ)
    (g : Good) :
    (supplyDemandRatioOf pop welfare development x y g production < 0.8 →
      adjustedPriceGood pop welfare development x y g production price =
        price * (1 + PRICE_ADJUSTMENT_RATE)) ∧
    (supplyDemandRatioOf pop welfare development x y g production > 1.2 →
      adjustedPriceGood pop welfare development x y g production price =
        price * (1 - PRICE_ADJUSTMENT_RATE * 0.5)) ∧
    (0 ≤ production →
      supplyDemandRatioOf pop welfare development x y g production ≤ 1999.8 →
      0.01 ≤ updatePriceGood pop welfare development x y g production price ∧
      updatePriceGood pop welfare development x y g production price ≤ 100) := by
  refine ⟨fun h => ?_, fun h => ?_, fun hp hr => ?_⟩
  · simp only [adjustedPriceGood]
    rw [if_pos h]
  · simp only [adjustedPriceGood]
    rw [if_neg (by linarith), if_pos h]
  · have h0 : 0 ≤ supplyDemandRatioOf pop welfare development x y g production :=
      supplyDemandRatioOf_nonneg pop welfare development x y g production hp
    simp only [updatePriceGood]
    split_ifs with h1 h2
    · constructor <;> nlinarith
    · have hq : (0 : ℚ) < adjustedPriceGood pop welfare development x y g
          production price := by linarith
      have hd1 : 0 ≤ (adjustedPriceGood pop welfare development x y g
          production price - 100) / adjustedPriceGood pop welfare development
          x y g production price :=
        div_nonneg (by linarith) hq.le
      have hd2 : (adjustedPriceGood pop welfare development x y g production
          price - 100) / adjustedPriceGood pop welfare development x y g
          production price ≤ 1 :=
        (div_le_one hq).mpr (by linarith)
      constructor <;> nlinarith
    · push_neg at h1 h2
      exact ⟨h1, h2⟩

/-- Claim C8 witness: the amended theorem instantiated at concrete regions,
discharging the shortage branch, the surplus branch and the bounded-ratio
re-anchoring, with all hypotheses evaluated. -/
theorem C8_price_witness :
    adjustedPriceGood 1 1 0 0 0.5 .food 0.9 1 = 1 * (1 + PRICE_ADJUSTMENT_RATE) ∧
    adjustedPriceGood 1 1 0 0 0.5 .food 2 1 = 1 * (1 - PRICE_ADJUSTMENT_RATE * 0.5) ∧
    (0.01 ≤ updatePriceGood 1 1 0 0 0.5 .food 0.9 1 ∧
      updatePriceGood 1 1 0 0 0.5 .food 0.9 1 ≤ 100) :=
  ⟨(C8_price_amended 1 1 0 0 0.5 0.9 1 .food).1 (by
      norm_num [supplyDemandRatioOf, computeRegionalNeeds, subsistenceOf]),
   (C8_price_amended 1 1 0 0 0.5 2 1 .food).2.1 (by
      norm_num [supplyDemandRatioOf, computeRegionalNeeds, subsistenceOf]),
   (C8_price_amended 1 1 0 0 0.5 0.9 1 .food).2.2 (by norm_num) (by
      norm_num [supplyDemandRatioOf, computeRegionalNeeds, subsistenceOf])⟩

/-- The assign loop returns an index below `i + |remaining|` once a running
best below `i` is recorded. -/
theorem kAssignGo_lt (b : V4) :
    ∀ (l : List V4) (i : ℕ) (m : ℚ) (best : ℕ), best < i →
      kAssignGo b l i (some m) best < i + l.length := by
  intro l
  induction l with
  | nil => intro i m best h; simpa [kAssignGo] using h
  | cons c rest ih =>
    intro i m best h
    simp only [kAssignGo]
    split_ifs with hlt
    · have := ih (i + 1) (sqDist b c) i (Nat.lt_succ_self i)
      simp only [List.length_cons]
      omega
    · have := ih (i + 1) m best (Nat.lt_succ_of_lt h)
      simp only [List.length_cons]
      omega

/-- The assigned cluster index is always below the number of centroids. -/
theorem kAssignOne_lt (b : V4) (centroids : List V4) (h : centroids ≠ []) :
    kAssignOne b centroids < centroids.length := by
  cases centroids with
  | nil => exact absurd rfl h
  | cons c rest =>
    have h1 := kAssignGo_lt b rest 1 (sqDist b c) 0 Nat.one_pos
    have h2 : kAssignOne b (c :: rest) = kAssignGo b rest 1 (some (sqDist b c)) 0 := rfl
    rw [h2, List.length_cons]
    omega

/-- Zipping a list with its own image pairs each element with its image. -/
theorem zip_self_map (agents : List CAgent) (f : CAgent → ℕ) :
    agents.zip (agents.map f) = agents.map fun a => (a, f a) := by
  induction agents with
  | nil => rfl
  | cons a tl ih => simp [ih]

/-- Claim C9 counterexample: a dead agent (id 1, `alive = false`) is assigned
to a cluster and its id appears in that cluster's member list — the k-means
pipeline never consults the alive flag. -/
theorem C9_kmeans_alive_counterexample :
    ((⟨1, false, ⟨0, 0, 0, 0⟩⟩ : CAgent).alive = false) ∧
    1 ∈ ((collectMembers 2
        [⟨0, true, ⟨1, 0, 0, 0⟩⟩, ⟨1, false, ⟨0, 0, 0, 0⟩⟩]
        (kmeansAssign [⟨0, true, ⟨1, 0, 0, 0⟩⟩, ⟨1, false, ⟨0, 0, 0, 0⟩⟩]
          [⟨1, 0, 0, 0⟩, ⟨0, 0, 0, 0⟩])).getD 1 []) := by
  refine ⟨rfl, ?_⟩
  norm_num [collectMembers, kmeansAssign, kAssignOne, kAssignGo, sqDist,
    List.range_succ]

/-- Claim C9 (amended): the k-means assignment and member collection operate
over all agents regardless of the alive flag — the assignment is invariant
under arbitrary changes of the alive flags, and every agent (dead or alive)
has its id listed in some returned cluster. -/
theorem C9_kmeans_alive_amended :
    (∀ (agents : List CAgent) (centroids : List V4) (f : CAgent → Bool),
      kmeansAssign (agents.map fun a => { a with alive := f a }) centroids =
        kmeansAssign agents centroids) ∧
    (∀ (agents : List CAgent) (centroids : List V4), centroids ≠ [] →
      ∀ a ∈ agents, a.id ∈ (collectMembers centroids.length agents
          (kmeansAssign agents centroids)).flatten) := by
  constructor
  · intro agents centroids f
    simp [kmeansAssign, List.map_map, Function.comp]
  · intro agents centroids h a ha
    rw [List.mem_flatten]
    refine ⟨(agents.zip (kmeansAssign agents centroids)).filterMap fun p =>
      if p.2 = kAssignOne a.B centroids then some p.1.id else none, ?_, ?_⟩
    · simp only [collectMembers]
      exact List.mem_map_of_mem _
        (List.mem_range.mpr (kAssignOne_lt a.B centroids h))
    · rw [kmeansAssign, zip_self_map]
      rw [List.mem_filterMap]
      exact ⟨(a, kAssignOne a.B centroids),
        List.mem_map_of_mem _ ha, by simp⟩

/-- Claim C9 witness: the amended theorem applied to a singleton population
consisting of one dead agent, hypotheses discharged by evaluation. -/
theorem C9_kmeans_alive_witness :
    2 ∈ ((collectMembers 1 [⟨2, false, ⟨0, 0, 0, 0⟩⟩]
      (kmeansAssign [⟨2, false, ⟨0, 0, 0, 0⟩⟩] [⟨0, 0, 0, 0⟩])).flatten) :=
  C9_kmeans_alive_amended.2 [⟨2, false, ⟨0, 0, 0, 0⟩⟩] [⟨0, 0, 0, 0⟩]
    (by simp) ⟨2, false, ⟨0, 0, 0, 0⟩⟩ (by simp)

/-- Adding a constant to every list entry adds `length * constant` to the
sum. -/
theorem sum_map_add_const (l : List ℚ) (c : ℚ) :
    (l.map fun f => f + c).sum = l.sum + (l.length : ℚ) * c := by
  induction l with
  | nil => simp
  | cons a tl ih =>
    simp only [List.map_cons, List.sum_cons, List.length_cons, ih]
    push_cast
    ring

/-- `S + n * (-S / n) = 0` for nonzero `n`. -/
theorem add_mul_neg_div (n S : ℚ) (hn : n ≠ 0) : S + n * (-S / n) = 0 := by
  field_simp
  ring

/-- Claim C2 (amended): after the mean-residual correction the per-good sum
of trade balances over all regions is within 1e-6 of zero (exactly zero when
the correction fires); the subsequent transport attenuation scales each
region by its own degree-dependent factor and can break this conservation
(see the counterexample). -/
theorem C2_trade_conservation_amended (adj : List (List ℕ))
    (production demand : List ℚ) (rate : ℚ)
    (hlen : production.length = demand.length) (hpos : 0 < production.length) :
    |(computeFlowGood adj production demand rate).sum| ≤ 1/1000000 := by
  have hslen : (List.zipWith (· - ·) production demand).length =
      production.length := by
    rw [List.length_zipWith, hlen, min_self]
  have hn : (((List.zipWith (· - ·) production demand).length : ℕ) : ℚ) ≠ 0 := by
    rw [hslen]
    exact_mod_cast hpos.ne'
  simp only [computeFlowGood]
  split_ifs with h
  · rw [sum_map_add_const, List.length_map, List.length_range,
      add_mul_neg_div _ _ hn]
    norm_num
  · push_neg at h
    exact h

/-- Claim C2 witness: the amended theorem applied to a one-region economy,
hypotheses discharged by evaluation. -/
theorem C2_trade_conservation_witness :
    |(computeFlowGood [[]] [1] [0] 0.15).sum| ≤ 1/1000000 :=
  C2_trade_conservation_amended [[]] [1] [0] 0.15 rfl (by norm_num)

/-- The corrected (pre-transport) balances of the counterexample economy:
a hub with four partners and four spokes with one partner each, good surplus
10 in region 1 and zero demand. -/
theorem computeFlowGood_cex :
    computeFlowGood [[1, 2, 3, 4], [0], [0], [0], [0]]
      [0, 10, 0, 0, 0] [0, 0, 0, 0, 0] 0.15 = [-2, 8, -2, -2, -2] := by
  norm_num [computeFlowGood, lapMul, lapEntry, List.range_succ,
    List.getD_cons_zero, List.getD_cons_succ]

/-- Claim C2 counterexample: for the hub-and-spokes adjacency the corrected
balances `[-2, 8, -2, -2, -2]` sum to zero, but the transport attenuation
multiplies the hub (degree 4) by `0.96` and the spokes (degree 1) by `0.98`,
leaving a post-update global sum of `0.04`, far beyond the 1e-6 tolerance. -/
theorem C2_trade_conservation_counterexample :
    ¬ |(computeFlowsFinal [[1, 2, 3, 4], [0], [0], [0], [0]]
        [0, 10, 0, 0, 0] [0, 0, 0, 0, 0] 0.15).sum| ≤ 1/1000000 := by
  have h4 : Real.sqrt 4 = 2 := by
    rw [show (4 : ℝ) = 2 ^ 2 by norm_num]
    exact Real.sqrt_sq (by norm_num)
  rw [computeFlowsFinal, computeFlowGood_cex]
  simp only [applyTransport, transportFactor, List.range_succ, List.range_zero,
    List.map_cons, List.map_nil, List.map_append, List.sum_cons, List.sum_nil,
    List.sum_append, List.getD_cons_zero, List.getD_cons_succ,
    List.length_cons, List.length_nil, Nat.cast_ofNat, Nat.cast_one, h4,
    Real.sqrt_one]
  norm_num [max_def, h4, abs_of_nonneg]
